import Mathlib

/-!
Verification of the BEE orchestration core against its specification.

The definitions below are shallow embeddings of the Python sources:

* `BEE.TM`    — the Task Manager control loop
  (`beeflow/task_manager/task_manager.py`): the two in-memory queues,
  `submit_jobs`, `update_jobs`, `check_tasks` and `TaskActions.delete`.
* `BEE.GS`    — the graph-store transaction functions
  (`beeflow/common/gdb/neo4j_cypher.py`) over an explicit property-graph
  state, and the driver operations built from them
  (`beeflow/common/gdb/neo4j_driver.py`).
* `BEE.Sched` — the scheduling algorithms
  (`beeflow/scheduler/algorithms.py`).  The `TaskAllocator` helper they
  call is not part of the sources, so it is modelled from the
  specification text (see the doc comments marked `Modelled from the
  spec:`).

Side effects are made explicit: backend calls go through a `Worker`
record of response functions, and every function that the Python code
lets mutate shared state instead returns the new state together with a
trace of the externally visible calls it made (submissions, upstream
state updates, cancellations).
-/

namespace BEE.TM

/-- A task as the Task Manager sees it: only the `name` attribute is read
by `submit_jobs` (the id travels separately as the dictionary key). -/
structure TMTask where
  name : String
deriving DecidableEq, Repr

/-- The workload backend (`WorkerInterface`): `submit_task` returns
`(job_id, job_state)` with `job_id = -1` on failure, `query_task` returns
`(ok, state)` where `ok = 1` means the query succeeded, and `cancel_task`
returns `(success, job_state)`. -/
structure Worker where
  submitTask : TMTask → Int × String
  queryTask : Int → Nat × String
  cancelTask : Int → Nat × String

/-- An entry of `job_queue`: the single-key dictionary
`{task_id: {name, job_id, job_state}}`. -/
structure JobEntry where
  task_id : String
  name : String
  job_id : Int
  job_state : String
deriving DecidableEq, Repr

/-- `submit_jobs`: pop entries off `submit_queue` one by one, call the
backend `submit_task` for each, and on success append a `job_queue`
entry.  Returns the new `job_queue`, the list of upstream
`update_task_state` messages in emission order, and the list of task ids
for which a backend submit call was made (one per pop). -/
def submit_jobs (w : Worker) :
    List (String × TMTask) → List JobEntry →
    List JobEntry × List (String × String) × List String
  | [], jq => (jq, [], [])
  | (task_id, task) :: rest, jq =>
    let r := w.submitTask task
    if r.1 = -1 then
      let r2 := submit_jobs w rest jq
      (r2.1, (task_id, "SUBMIT_FAIL") :: r2.2.1, task_id :: r2.2.2)
    else
      let r2 := submit_jobs w rest (jq ++ [⟨task_id, task.name, r.1, r.2⟩])
      (r2.1, (task_id, r.2) :: r2.2.1, task_id :: r2.2.2)

/-- The canonical states on which `update_jobs` drops an entry from
`job_queue`. -/
def terminalStates : List String := ["COMPLETED", "CANCELLED", "ZOMBIE"]

/-- The Python `for job in job_queue` loop of `update_jobs`, including
the in-loop `job_queue.remove(job)`: the list iterator keeps a position
that advances every iteration, so when the current entry is removed the
list shifts and the entry right after it is kept but never examined.
(Queue entries are assumed pairwise distinct, which holds in practice
because task ids are unique, so `remove` drops the current entry.)
Returns the new queue and the upstream state updates in emission
order. -/
def update_jobs_go (w : Worker) : List JobEntry → List JobEntry × List (String × String)
  | [] => ([], [])
  | job :: rest =>
    let st := w.queryTask job.job_id
    let job_state := if st.1 = 1 then st.2 else "ZOMBIE"
    let upd : List (String × String) :=
      if job_state ≠ job.job_state then [(job.task_id, job_state)] else []
    if job_state ∈ terminalStates then
      match rest with
      | [] => ([], upd)
      | skipped :: rest2 =>
        let r := update_jobs_go w rest2
        (skipped :: r.1, upd ++ r.2)
    else
      let r := update_jobs_go w rest
      ({ job with job_state := job_state } :: r.1, upd ++ r.2)

/-- `update_jobs`: poll every examined job in `job_queue`, map query
failures to `ZOMBIE`, emit an upstream update when the state changed,
and remove entries in a terminal state. -/
def update_jobs (w : Worker) (q : List JobEntry) :
    List JobEntry × List (String × String) :=
  update_jobs_go w q

/-- The `for job in job_queue` loop of `TaskActions.delete`: every
iteration removes the current entry and issues a backend cancel for it,
so the iterator skips the entry that shifts into the freed place.  The
trace records `(task_id, job_id)` for each backend cancel issued. -/
def task_actions_delete_go (w : Worker) : List JobEntry → List JobEntry × List (String × Int)
  | [] => ([], [])
  | job :: rest =>
    let _ := w.cancelTask job.job_id
    match rest with
    | [] => ([], [(job.task_id, job.job_id)])
    | skipped :: rest2 =>
      let r := task_actions_delete_go w rest2
      (skipped :: r.1, (job.task_id, job.job_id) :: r.2)

/-- `TaskActions.delete`: the cancel operation the WFM invokes. -/
def task_actions_delete (w : Worker) (q : List JobEntry) :
    List JobEntry × List (String × Int) :=
  task_actions_delete_go w q

/-- The Task Manager state: the two module-level queues. -/
structure TMState where
  submit_queue : List (String × TMTask)
  job_queue : List JobEntry
deriving DecidableEq, Repr

/-- `check_tasks`: one tick — drain `submit_queue`, then poll
`job_queue`.  Returns the new state, the upstream updates, and the ids
of the backend submit calls made during the tick. -/
def check_tasks (w : Worker) (s : TMState) :
    TMState × List (String × String) × List String :=
  let sub := submit_jobs w s.submit_queue s.job_queue
  let upd := update_jobs w sub.1
  (⟨[], upd.1⟩, sub.2.1 ++ upd.2, sub.2.2)

/-- Run `n` ticks of `check_tasks` with no interleaved enqueues,
collecting the backend submit-call trace. -/
def run_ticks (w : Worker) : Nat → TMState → TMState × List String
  | 0, s => (s, [])
  | n + 1, s =>
    let t := check_tasks w s
    let r := run_ticks w n t.1
    (r.1, t.2.2 ++ r.2)

theorem submit_jobs_calls (w : Worker) (sq : List (String × TMTask))
    (jq : List JobEntry) : (submit_jobs w sq jq).2.2 = sq.map Prod.fst := by
  induction sq generalizing jq with
  | nil => rfl
  | cons e rest ih =>
    obtain ⟨task_id, task⟩ := e
    simp only [submit_jobs]
    by_cases hfail : (w.submitTask task).1 = -1
    · simp [hfail, ih]
    · simp [hfail, ih]

theorem run_ticks_empty_submit_calls (w : Worker) (n : Nat)
    (jq : List JobEntry) : (run_ticks w n ⟨[], jq⟩).2 = [] := by
  induction n generalizing jq with
  | zero => rfl
  | succ n ih =>
    simp only [run_ticks, check_tasks, submit_jobs]
    exact ih _

theorem run_ticks_calls (w : Worker) (n : Nat) (sq : List (String × TMTask))
    (jq : List JobEntry) :
    (run_ticks w n ⟨sq, jq⟩).2 = if n = 0 then [] else sq.map Prod.fst := by
  cases n with
  | zero => rfl
  | succ n =>
    simp only [run_ticks, check_tasks, Nat.succ_ne_zero, if_false]
    rw [run_ticks_empty_submit_calls, submit_jobs_calls]
    simp

/-- A backend whose submissions always succeed; used to instantiate the
universally quantified claim theorems at a concrete point. -/
def okWorker : Worker :=
  ⟨fun _ => (1, "PENDING"), fun _ => (1, "RUNNING"), fun _ => (1, "CANCELLED")⟩

/-- A backend whose `query_task` always fails; used to exercise the
ZOMBIE path of `update_jobs`. -/
def failWorker : Worker :=
  ⟨fun _ => (1, "PENDING"), fun _ => (0, "UNKNOWN"), fun _ => (1, "CANCELLED")⟩

/-- C1: for every task id enqueued at most once, the number of backend
submit calls made for that id over any run of `n` ticks is at most one:
`submit_jobs` pops an entry before submitting it and never re-enqueues,
so each entry generates exactly one backend submit call no matter how
many ticks follow. -/
theorem C1_no_double_submit (w : Worker) (n : Nat)
    (sq : List (String × TMTask)) (jq : List JobEntry) (tid : String)
    (h : (sq.map Prod.fst).count tid ≤ 1) :
    ((run_ticks w n ⟨sq, jq⟩).2).count tid ≤ 1 := by
  rw [run_ticks_calls]
  split
  · simp
  · exact h

/-- Witness for C1 at a concrete input: one enqueued task, three ticks. -/
theorem C1_no_double_submit_witness :
    (([("a", TMTask.mk "x")].map Prod.fst).count "a" ≤ 1) ∧
    ((run_ticks okWorker 3 ⟨[("a", TMTask.mk "x")], []⟩).2).count "a" ≤ 1 :=
  ⟨by decide, C1_no_double_submit okWorker 3 [("a", TMTask.mk "x")] [] "a" (by decide)⟩

/-- C5: evaluation of `TaskActions.delete` at a two-entry `job_queue`.
Because the loop removes the current entry while iterating, the second
entry is skipped: only the first entry's backend cancel is issued, and
the queue is left holding the second entry instead of being empty. -/
theorem C5_cancel_skips_entries :
    task_actions_delete okWorker
      [⟨"t0", "n0", 10, "PENDING"⟩, ⟨"t1", "n1", 11, "PENDING"⟩] =
      ([⟨"t1", "n1", 11, "PENDING"⟩], [("t0", 10)]) := by
  rfl

/-- C6 counterexample: a `job_queue` entry whose backend query fails is
removed on the very first failing poll (no counter of consecutive
failures exists), and the state reported upstream is `ZOMBIE`, not
`FAILED`. -/
theorem C6_zombie_counterexample :
    update_jobs failWorker [⟨"t1", "n1", 7, "PENDING"⟩] =
      ([], [("t1", "ZOMBIE")]) ∧
    [("t1", "ZOMBIE")] ≠ [("t1", "FAILED")] := by
  constructor
  · rfl
  · decide

/-- C6 amended: an entry whose backend query fails (or returns an
unmapped state flag) is marked `ZOMBIE`, the change is reported upstream
as `ZOMBIE`, and the entry is removed from `job_queue` on that same
poll. -/
theorem C6_zombie_amended (w : Worker) (e : JobEntry)
    (hfail : (w.queryTask e.job_id).1 ≠ 1)
    (hst : e.job_state ≠ "ZOMBIE") :
    update_jobs w [e] = ([], [(e.task_id, "ZOMBIE")]) := by
  simp [update_jobs, update_jobs_go, hfail, Ne.symm hst, terminalStates]

/-- Witness for C6 amended at a concrete entry and backend. -/
theorem C6_zombie_amended_witness :
    ((failWorker.queryTask 7).1 ≠ 1) ∧
    (("PENDING" : String) ≠ "ZOMBIE") ∧
    update_jobs failWorker [⟨"tw", "nw", 7, "PENDING"⟩] =
      ([], [("tw", "ZOMBIE")]) :=
  ⟨by decide, by decide,
    C6_zombie_amended failWorker ⟨"tw", "nw", 7, "PENDING"⟩ (by decide) (by decide)⟩

end BEE.TM

namespace BEE.GS

/-- A task `Input` node: `id`, optional `source`, optional `value`,
optional `default`.  The CLI-binding properties (`type`, `prefix`,
`position`) are carried by the Neo4j nodes but read by none of the
transaction functions modelled here, so they are omitted. -/
structure TInput where
  id : String
  source : Option String
  value : Option String
  default : Option String
deriving DecidableEq, Repr

/-- A task `Output` node: `id` and optional `value` (`type` and `glob`
are read by no modelled transaction). -/
structure TOutput where
  id : String
  value : Option String
deriving DecidableEq, Repr

/-- A `Task` node together with the state of the `Metadata` node that
`DESCRIBES` it and its `HAS_INPUT` / `HAS_OUTPUT` port nodes. -/
structure GTask where
  id : String
  state : String
  inputs : List TInput
  outputs : List TOutput
deriving DecidableEq, Repr

/-- A workflow `Input` node. -/
structure WfInput where
  id : String
  value : Option String
deriving DecidableEq, Repr

/-- A workflow `Output` node. -/
structure WfOutput where
  id : String
  source : Option String
  value : Option String
deriving DecidableEq, Repr

/-- The property graph held by Neo4j, restricted to the node labels and
edges the modelled transactions touch.  `begins` is the set of task ids
with a `BEGINS` edge to the `Workflow` node; `depends` is the set of
`DEPENDS` edges `(from-task-id, to-task-id)`. -/
structure Graph where
  wfInputs : List WfInput
  wfOutputs : List WfOutput
  tasks : List GTask
  begins : List String
  depends : List (String × String)
deriving DecidableEq, Repr

/-- Look a task up by id (`MATCH (t:Task {id: $task_id})`). -/
def findTask (g : Graph) (tid : String) : Option GTask :=
  g.tasks.find? (fun t => t.id == tid)

/-- The observed state of a task: the `state` property of the metadata
node describing it, or `none` when no such task exists. -/
def taskState (g : Graph) (tid : String) : Option String :=
  (findTask g tid).map (fun t => t.state)

/-- The observed value of input `iid` of task `tid`: `some v` when the
task and the input exist (`v` itself is an `Option`, `none` meaning the
Neo4j property is null), `none` when the task or input is missing. -/
def inputValue (g : Graph) (tid iid : String) : Option (Option String) :=
  (findTask g tid).bind (fun t => (t.inputs.find? (fun i => i.id == iid)).map (fun i => i.value))

/-- `set_init_tasks_to_ready`: set the state of every task that has a
`BEGINS` edge to the workflow and no outgoing `DEPENDS` edge to
`READY`. -/
def set_init_tasks_to_ready (g : Graph) : Graph :=
  { g with tasks := g.tasks.map (fun t =>
      if g.begins.contains t.id && !(g.depends.any (fun p => p.1 == t.id)) then
        { t with state := "READY" }
      else t) }

/-- `set_init_task_inputs`: fill the inputs of the `BEGINS` tasks from
matching non-null workflow inputs, then from their own defaults where
still null.  (Defined for completeness: no driver operation in the
sources invokes it — in particular `Neo4jDriver.execute_workflow` does
not.) -/
def set_init_task_inputs (g : Graph) : Graph :=
  let pass1 : Graph := { g with tasks := g.tasks.map (fun t =>
      if g.begins.contains t.id then
        { t with inputs := t.inputs.map (fun i =>
            match g.wfInputs.find? (fun wi => i.source == some wi.id && wi.value.isSome) with
            | some wi => { i with value := wi.value }
            | none => i) }
      else t) }
  { pass1 with tasks := pass1.tasks.map (fun t =>
      if pass1.begins.contains t.id then
        { t with inputs := t.inputs.map (fun i =>
            if (g.wfInputs.any (fun wi => i.source == some wi.id)) &&
                i.value == none && i.default.isSome then
              { i with value := i.default }
            else i) }
      else t) }

/-- `Neo4jDriver.execute_workflow`: a single write transaction running
`set_init_tasks_to_ready` (and nothing else). -/
def execute_workflow (g : Graph) : Graph :=
  set_init_tasks_to_ready g

/-- `set_runnable_tasks_to_ready`: set to `READY` every task matched by
`(m:Metadata)-[:DESCRIBES]->(t:Task)-[:HAS_INPUT]->(i:Input)` — so
necessarily a task with at least one input — whose state is `WAITING`
and all of whose inputs have non-null values. -/
def set_runnable_tasks_to_ready (g : Graph) : Graph :=
  { g with tasks := g.tasks.map (fun t =>
      if !t.inputs.isEmpty && t.state == "WAITING" &&
          t.inputs.all (fun i => i.value.isSome) then
        { t with state := "READY" }
      else t) }

/-- `Neo4jDriver.initialize_ready_tasks`: a single write transaction
running `set_runnable_tasks_to_ready`. -/
def initialize_ready_tasks (g : Graph) : Graph :=
  set_runnable_tasks_to_ready g

/-- `add_dependencies`: the two queries run for a freshly created task
`sid`.  The `begins_query` installs a `BEGINS` edge when some input
source of `sid` matches a workflow input id.  The `dependency_query` is
a single chained Cypher query: its first half installs `DEPENDS` edges
from `sid` to every existing task one of whose output ids matches an
input source of `sid`; its second half — which, being chained behind the
first half's `WHERE`, only runs when the first half matched at least one
producer — installs `DEPENDS` edges towards `sid` from every task one of
whose input sources matches an output id of `sid`. -/
def add_dependencies (g : Graph) (sid : String) : Graph :=
  let sources := (((findTask g sid).map (fun t => t.inputs)).getD []).map (fun i => i.source)
  let g1 :=
    if sources.any (fun src => g.wfInputs.any (fun wi => src == some wi.id)) then
      { g with begins := if g.begins.contains sid then g.begins else g.begins ++ [sid] }
    else g
  let matched := g1.tasks.filter (fun t =>
    sources.any (fun src => t.outputs.any (fun o => src == some o.id)))
  let g2 := { g1 with depends := matched.foldl (fun d t =>
    if d.contains (sid, t.id) then d else d ++ [(sid, t.id)]) g1.depends }
  if matched.isEmpty then g2
  else
    let sOutIds := (((findTask g2 sid).map (fun t => t.outputs)).getD []).map (fun o => o.id)
    let rev := g2.tasks.filter (fun t =>
      sOutIds.any (fun oid => t.inputs.any (fun i => i.source == some oid)))
    { g2 with depends := rev.foldl (fun d t =>
        if d.contains (t.id, sid) then d else d ++ [(t.id, sid)]) g2.depends }

/-- `Neo4jDriver.load_task`: run `create_task`, the hint, requirement
and metadata transactions, then `add_dependencies`.  `create_task`
creates a Task node with only the id, workflow id, name, base command
and stdout properties, and `create_task_metadata_node` attaches a
`WAITING` metadata node; `create_task_input_nodes` and
`create_task_output_nodes` are never invoked — by `load_task` or by
anything else in the sources — so the stored task has no Input or
Output port nodes: the graph-side task carries empty `inputs` and
`outputs`, whatever ports the task object handed in declares. -/
def load_task (g : Graph) (t : GTask) : Graph :=
  add_dependencies
    { g with tasks := g.tasks ++ [{ t with state := "WAITING", inputs := [], outputs := [] }] }
    t.id

theorem find?_map_preserve (l : List GTask) (f : GTask → GTask)
    (hf : ∀ t, (f t).id = t.id) (tid : String) :
    (l.map f).find? (fun t => t.id == tid) =
      Option.map f (l.find? (fun t => t.id == tid)) := by
  rw [List.find?_map]
  have hp : ((fun t : GTask => t.id == tid) ∘ f) = (fun t : GTask => t.id == tid) := by
    funext t
    simp [Function.comp, hf]
  rw [hp]

/-- The concrete graph refuting C2 as stated: one workflow input with a
non-null value, one entry task whose single input sources it. -/
def c2Graph : Graph :=
  ⟨[⟨"wfin", some "v"⟩], [], [⟨"a", "WAITING", [⟨"in1", some "wfin", none, none⟩], []⟩],
    ["a"], []⟩

/-- C2 counterexample: `execute_workflow` moves the entry task to
`READY` but leaves its input null instead of filling it with the
matching workflow input's value, because the driver's
`execute_workflow` runs only `set_init_tasks_to_ready` and never
`set_init_task_inputs`. -/
theorem C2_execute_counterexample :
    taskState (execute_workflow c2Graph) "a" = some "READY" ∧
    inputValue (execute_workflow c2Graph) "a" "in1" = some none ∧
    some (none : Option String) ≠ some (some "v") := by
  refine ⟨rfl, rfl, ?_⟩
  decide

/-- C2 amended: after `execute_workflow`, a task with a `BEGINS` edge
and no outgoing `DEPENDS` edge is in state `READY`, every other task
keeps its state, and no input value is modified. -/
theorem C2_execute_amended (g : Graph) (tid iid : String) :
    (taskState (execute_workflow g) tid =
      if g.begins.contains tid && !(g.depends.any (fun p => p.1 == tid)) then
        Option.map (fun _ => "READY") (taskState g tid)
      else taskState g tid) ∧
    inputValue (execute_workflow g) tid iid = inputValue g tid iid := by
  have hf : ∀ t : GTask,
      ((if g.begins.contains t.id && !(g.depends.any (fun p => p.1 == t.id)) then
        { t with state := "READY" } else t) : GTask).id = t.id := by
    intro t
    split <;> rfl
  constructor
  · unfold taskState execute_workflow set_init_tasks_to_ready findTask
    rw [find?_map_preserve _ _ hf]
    cases hfind : g.tasks.find? (fun t => t.id == tid) with
    | none => simp
    | some t =>
      have hid : t.id = tid := by
        have := List.find?_some hfind
        simpa using this
      simp only [Option.map_some', Function.comp_apply]
      rw [hid]
      by_cases hc : (g.begins.contains tid && !(g.depends.any (fun p => p.1 == tid))) = true
      · rw [if_pos hc, if_pos hc]
      · rw [if_neg hc, if_neg hc]
  · unfold inputValue execute_workflow set_init_tasks_to_ready findTask
    rw [find?_map_preserve _ _ hf]
    cases hfind : g.tasks.find? (fun t => t.id == tid) with
    | none => simp
    | some t =>
      simp only [Option.map_some', Option.some_bind]
      split <;> rfl

/-- The concrete graph refuting C4 as stated: one task in `WAITING`
with zero input ports. -/
def c4Graph : Graph := ⟨[], [], [⟨"z", "WAITING", [], []⟩], [], []⟩

/-- C4 counterexample: a `WAITING` task with zero input ports is not
matched by `set_runnable_tasks_to_ready` — the Cypher pattern requires
at least one `HAS_INPUT` edge — so it stays `WAITING` although the
claim (quantifying over tasks with zero input ports too) demands
`READY`. -/
theorem C4_initialize_ready_counterexample :
    taskState (initialize_ready_tasks c4Graph) "z" = some "WAITING" ∧
    some ("WAITING" : String) ≠ some "READY" := by
  refine ⟨rfl, ?_⟩
  decide

/-- C4 amended: after `initialize_ready_tasks`, a task that was
`WAITING`, has at least one input port, and all of whose input ports
have non-null values, is `READY`; every other task (including every
task with zero input ports) keeps its state, and no input value is
modified. -/
theorem C4_initialize_ready_amended (g : Graph) (tid iid : String) :
    (taskState (initialize_ready_tasks g) tid =
      Option.map (fun t =>
        if !t.inputs.isEmpty && t.state == "WAITING" &&
            t.inputs.all (fun i => i.value.isSome) then "READY" else t.state)
        (findTask g tid)) ∧
    inputValue (initialize_ready_tasks g) tid iid = inputValue g tid iid := by
  have hf : ∀ t : GTask,
      ((if !t.inputs.isEmpty && t.state == "WAITING" &&
          t.inputs.all (fun i => i.value.isSome) then
        { t with state := "READY" } else t) : GTask).id = t.id := by
    intro t
    split <;> rfl
  constructor
  · unfold taskState initialize_ready_tasks set_runnable_tasks_to_ready findTask
    rw [find?_map_preserve _ _ hf]
    cases hfind : g.tasks.find? (fun t => t.id == tid) with
    | none => simp
    | some t =>
      simp only [Option.map_some', Function.comp_apply]
      split <;> rfl
  · unfold inputValue initialize_ready_tasks set_runnable_tasks_to_ready findTask
    rw [find?_map_preserve _ _ hf]
    cases hfind : g.tasks.find? (fun t => t.id == tid) with
    | none => simp
    | some t =>
      simp only [Option.map_some', Option.some_bind]
      split <;> rfl

/-- The graph state before the two loads: a single workflow input
`wfin` (present so that even the `BEGINS` half has something it could
match). -/
def c9Graph : Graph := ⟨[⟨"wfin", some "x"⟩], [], [], [], []⟩

/-- Producer task object: consumes the workflow input, declares output
`o1`.  These are the ports of the Python `Task` object handed to
`load_task`; `load_task` never materialises them in the graph. -/
def taskA : GTask := ⟨"A", "WAITING", [⟨"ain", some "wfin", none, none⟩], [⟨"o1", none⟩]⟩

/-- Consumer task object: its input sources `o1`, declares output
`o2`. -/
def taskB : GTask := ⟨"B", "WAITING", [⟨"bin", some "o1", none, none⟩], [⟨"o2", none⟩]⟩

/-- C9: loading A and B in either order creates no `DEPENDS` edge (and
no `BEGINS` edge), although B's input source matches A's output id — so
the claimed edge B → A never exists.  `load_task` omits
`create_task_input_nodes`/`create_task_output_nodes`, so every `MATCH`
over `HAS_INPUT`/`HAS_OUTPUT` in `add_dependencies` finds zero rows,
while `load_task`'s own docstring promises that dependencies are
deduced by matching task inputs and outputs. -/
theorem C9_no_dependency_edges :
    (load_task (load_task c9Graph taskA) taskB).depends = [] ∧
    (load_task (load_task c9Graph taskB) taskA).depends = [] ∧
    (load_task (load_task c9Graph taskA) taskB).begins = [] ∧
    (taskB.inputs.map (fun i => i.source)).contains (some "o1") = true ∧
    (taskA.outputs.map (fun o => o.id)).contains "o1" = true := by
  exact ⟨rfl, rfl, rfl, rfl, rfl⟩

end BEE.GS

namespace BEE.Sched

/-- The task requirements the algorithms read: `max_runtime` and
`nodes` (`mem_per_node` is read by no algorithm code path modelled
here). -/
structure Reqs where
  max_runtime : Nat
  nodes : Nat
deriving DecidableEq, Repr

/-- A scheduler task: name plus requirements. -/
structure SchedTask where
  task_name : String
  requirements : Reqs
deriving DecidableEq, Repr

/-- Modelled from the spec: an `Allocation` — a reservation of resource
capacity over the time interval `[start_time, start_time + runtime)`,
tagged with the name of the task whose `allocate` call created it (the
call trace). -/
structure Alloc where
  task_name : String
  start_time : Nat
  runtime : Nat
  nodes : Nat
deriving DecidableEq, Repr

/-- Modelled from the spec: overlap math — an allocation with span
`[s2, s2 + d2)` overlaps the queried interval `[s, s + d)` iff
`s < s2 + d2 ∧ s2 < s + d`. -/
def overlaps (a : Alloc) (s d : Nat) : Bool :=
  decide (s < a.start_time + a.runtime) && decide (a.start_time < s + d)

/-- Modelled from the spec: the sum of the capacities of the existing
allocations whose time spans overlap `[s, s + d)`. -/
def usedNodes (allocs : List Alloc) (s d : Nat) : Nat :=
  ((allocs.filter (fun a => overlaps a s d)).map (fun a => a.nodes)).sum

/-- Modelled from the spec: `TaskAllocator.fits_requirements` — whether
the requirement can ever fit the aggregate node capacity `cap` of the
resource inventory (`resource_allocation.py` is absent from the
sources; the inventory is modelled by its aggregate capacity). -/
def fits_requirements (cap : Nat) (r : Reqs) : Bool :=
  decide (r.nodes ≤ cap)

/-- Modelled from the spec: `TaskAllocator.can_run_now(requirements,
start_time)` — the remaining capacity on the inventory over
`[start_time, start_time + max_runtime)` (capacity minus the sum of
overlapping allocations) fits the requirement. -/
def can_run_now (cap : Nat) (allocs : List Alloc) (r : Reqs) (s : Nat) : Bool :=
  decide (r.nodes ≤ cap - usedNodes allocs s r.max_runtime)

/-- Modelled from the spec: `TaskAllocator.allocate(requirements,
start_time)` — record a new allocation; the created allocation is also
what the caller assigns to `task.allocations`. -/
def allocate (allocs : List Alloc) (name : String) (r : Reqs) (s : Nat) : List Alloc :=
  allocs ++ [⟨name, s, r.max_runtime, r.nodes⟩]

/-- Modelled from the spec: `TaskAllocator.get_end_times` — the end
times of the current allocations. -/
def end_times (allocs : List Alloc) : List Nat :=
  allocs.map (fun a => a.start_time + a.runtime)

/-- The start times the `while not can_run_now: start_time =
get_next_end_time(start_time)` loop of `FCFS.schedule_all` visits, in
visit order: the current start time, then each allocation end time
greater than it in increasing order. -/
def startCandidates (allocs : List Alloc) (t0 : Nat) : List Nat :=
  t0 :: List.insertionSort (fun a b => a ≤ b) ((end_times allocs).filter (fun e => t0 < e))

/-- The start time the `FCFS.schedule_all` search loop settles on: the
first visited candidate at which the task can run.  `none` would mean
the Python loop diverges; it is `some` whenever the task fits the
inventory at all (`find_start_isSome_of_fits`). -/
def find_start (cap : Nat) (allocs : List Alloc) (r : Reqs) (t0 : Nat) : Option Nat :=
  (startCandidates allocs t0).find? (can_run_now cap allocs r)

/-- The accumulator of `FCFS.schedule_all`: the allocator's ledger, the
persistent `start_time` variable, and the `(task, start)` assignments
made so far in arrival order. -/
structure FCFSState where
  allocs : List Alloc
  start_time : Nat
  assigns : List (String × Nat)
deriving DecidableEq, Repr

/-- One iteration of the `for task in tasks` loop of
`FCFS.schedule_all`: skip the task when it can never fit, otherwise
search forward from the current `start_time` (which persists across
tasks) and allocate at the first fitting time. -/
def fcfs_step (cap : Nat) (st : FCFSState) (t : SchedTask) : FCFSState :=
  if !(fits_requirements cap t.requirements) then st
  else
    match find_start cap st.allocs t.requirements st.start_time with
    | some s =>
      ⟨allocate st.allocs t.task_name t.requirements s, s,
        st.assigns ++ [(t.task_name, s)]⟩
    | none => st

/-- `FCFS.schedule_all`. -/
def fcfs_schedule_all (cap : Nat) (tasks : List SchedTask) : FCFSState :=
  tasks.foldl (fcfs_step cap) ⟨[], 0, []⟩

/-- The sort key of `SJF.schedule_all`:
`tasks.sort(key=lambda task: task.requirements.max_runtime)`. -/
def runtimeLE (a b : SchedTask) : Prop :=
  a.requirements.max_runtime ≤ b.requirements.max_runtime

instance : DecidableRel runtimeLE := fun _ _ => Nat.decLe _ _

instance : IsTotal SchedTask runtimeLE := ⟨fun _ _ => Nat.le_total _ _⟩

instance : IsTrans SchedTask runtimeLE := ⟨fun _ _ _ => Nat.le_trans⟩

/-- The stable ascending-`max_runtime` sort performed by
`SJF.schedule_all` (Python's `list.sort` is stable; insertion sort is
the stable sort used to model it). -/
def sortByRuntime (tasks : List SchedTask) : List SchedTask :=
  List.insertionSort runtimeLE tasks

/-- `SJF.schedule_all`: copy the task list, stable-sort the copy by
ascending `max_runtime`, and hand it to FCFS.  Returns the caller's
list (whose order the copy leaves untouched) together with the FCFS
result on the sorted copy. -/
def sjf_schedule_all (cap : Nat) (tasks : List SchedTask) :
    List SchedTask × FCFSState :=
  (tasks, fcfs_schedule_all cap (sortByRuntime tasks))

/-- A task object as `Backfill.schedule_all` sees it: the `allocations`
attribute starts empty and is overwritten by each `allocate` call made
for the task. -/
structure BFTask where
  name : String
  requirements : Reqs
  allocations : List Alloc
deriving DecidableEq, Repr

/-- One candidate of the backfill loop of `Backfill.schedule_all`:
compute `possible_times` (strictly before the shadow time), then — the
loop body has no `break` — allocate at *every* possible time at which
the candidate can run, overwriting `task.allocations` each time. -/
def backfill_cand_step (cap : Nat) (shadow : Nat) (times1 : List Nat)
    (acc : List Alloc × List BFTask) (bt : BFTask) : List Alloc × List BFTask :=
  let possible_times := times1.filter (fun tm => tm + bt.requirements.max_runtime < shadow)
  let res := possible_times.foldl (fun (acc2 : List Alloc × BFTask) tm =>
    if can_run_now cap acc2.1 bt.requirements tm then
      (allocate acc2.1 bt.name bt.requirements tm,
        { acc2.2 with allocations := [⟨bt.name, tm, bt.requirements.max_runtime,
            bt.requirements.nodes⟩] })
    else acc2) (acc.1, bt)
  (res.1, if res.2.allocations.isEmpty then acc.2 ++ [res.2] else acc.2)

/-- The backfill pass over the tasks remaining behind the reserved one:
returns the new ledger and the tasks that could not be backfilled. -/
def backfill_fold (cap : Nat) (shadow : Nat) (times1 : List Nat)
    (allocs : List Alloc) (rest : List BFTask) : List Alloc × List BFTask :=
  rest.foldl (backfill_cand_step cap shadow times1) (allocs, [])

/-- The `while tasks:` loop of `Backfill.schedule_all`.  `fuel` bounds
the number of iterations; every iteration pops one task and continues
with a subset of the rest, so the initial list length is enough fuel.
`current_time` is 0 throughout (the Python variable is never updated).
Returns the allocator's final ledger. -/
def backfill_go (cap : Nat) : Nat → List Alloc → List BFTask → List Alloc
  | 0, allocs, _ => allocs
  | _ + 1, allocs, [] => allocs
  | fuel + 1, allocs, t :: rest =>
    if !(fits_requirements cap t.requirements) then backfill_go cap fuel allocs rest
    else if can_run_now cap allocs t.requirements 0 then
      backfill_go cap fuel (allocate allocs t.name t.requirements 0) rest
    else
      let times := List.insertionSort (fun a b => a ≤ b) (end_times allocs)
      let shadowRes :=
        match times.find? (can_run_now cap allocs t.requirements) with
        | some sh => (allocate allocs t.name t.requirements sh, sh)
        | none => (allocs, 0)
      let fin := backfill_fold cap shadowRes.2 (0 :: times) shadowRes.1 rest
      backfill_go cap fuel fin.1 fin.2

/-- `Backfill.schedule_all`. -/
def backfill_schedule_all (cap : Nat) (tasks : List BFTask) : List Alloc :=
  backfill_go cap tasks.length [] tasks

theorem orderedInsert_filter_runtime (a : SchedTask) (l : List SchedTask) (r : Nat) :
    (List.orderedInsert runtimeLE a l).filter
        (fun t => t.requirements.max_runtime == r) =
      if a.requirements.max_runtime == r then
        a :: l.filter (fun t => t.requirements.max_runtime == r)
      else l.filter (fun t => t.requirements.max_runtime == r) := by
  induction l with
  | nil =>
    by_cases hpa : (a.requirements.max_runtime == r) = true <;>
      simp [List.orderedInsert, List.filter_cons, hpa]
  | cons b l ih =>
    by_cases hab : runtimeLE a b
    · by_cases hpa : (a.requirements.max_runtime == r) = true <;>
        simp [List.orderedInsert, hab, List.filter_cons, hpa]
    · have hba : b.requirements.max_runtime < a.requirements.max_runtime :=
        Nat.lt_of_not_le hab
      simp only [List.orderedInsert, if_neg hab, List.filter_cons]
      by_cases hpb : (b.requirements.max_runtime == r) = true
      · have hpa : (a.requirements.max_runtime == r) = false := by
          rw [beq_iff_eq] at hpb
          rw [beq_eq_false_iff_ne]
          omega
        simp [hpb, hpa, ih]
      · simp [hpb, ih]

theorem sortByRuntime_filter (tasks : List SchedTask) (r : Nat) :
    (sortByRuntime tasks).filter (fun t => t.requirements.max_runtime == r) =
      tasks.filter (fun t => t.requirements.max_runtime == r) := by
  induction tasks with
  | nil => rfl
  | cons a l ih =>
    simp only [sortByRuntime, List.insertionSort] at *
    rw [orderedInsert_filter_runtime, ih, List.filter_cons]

/-- C8: `SJF.schedule_all` leaves the caller's list in arrival order,
and assigns exactly the allocations of `FCFS.schedule_all` on the batch
sorted by ascending `max_runtime` with ties keeping arrival order — the
sorted copy is ascending in `max_runtime` and, for every runtime value,
preserves the arrival order of the tasks with that runtime (stable
sort). -/
theorem C8_sjf_eq_fcfs_on_stable_sort (cap : Nat) (tasks : List SchedTask) :
    (sjf_schedule_all cap tasks).1 = tasks ∧
    List.Sorted runtimeLE (sortByRuntime tasks) ∧
    (∀ r : Nat, (sortByRuntime tasks).filter
        (fun t => t.requirements.max_runtime == r) =
      tasks.filter (fun t => t.requirements.max_runtime == r)) ∧
    (sjf_schedule_all cap tasks).2 = fcfs_schedule_all cap (sortByRuntime tasks) :=
  ⟨rfl, List.sorted_insertionSort runtimeLE tasks,
    fun r => sortByRuntime_filter tasks r, rfl⟩

theorem find_start_ge (cap : Nat) (allocs : List Alloc) (r : Reqs) (t0 s : Nat)
    (h : find_start cap allocs r t0 = some s) : t0 ≤ s := by
  have hmem := List.mem_of_find?_eq_some h
  simp only [startCandidates, List.mem_cons] at hmem
  rcases hmem with rfl | hmem
  · exact Nat.le_refl _
  · have hmem2 := (List.perm_insertionSort (fun a b => a ≤ b) _).mem_iff.mp hmem
    have hlt := List.of_mem_filter hmem2
    exact Nat.le_of_lt (by simpa using hlt)

theorem fcfs_foldl_inv (cap : Nat) (tasks : List SchedTask) (st : FCFSState)
    (h1 : st.assigns.Pairwise (fun a b => a.2 ≤ b.2))
    (h2 : ∀ a ∈ st.assigns, a.2 ≤ st.start_time) :
    (tasks.foldl (fcfs_step cap) st).assigns.Pairwise (fun a b => a.2 ≤ b.2) := by
  induction tasks generalizing st with
  | nil => exact h1
  | cons t rest ih =>
    simp only [List.foldl_cons]
    have hstep : (fcfs_step cap st t).assigns.Pairwise (fun a b => a.2 ≤ b.2) ∧
        ∀ a ∈ (fcfs_step cap st t).assigns, a.2 ≤ (fcfs_step cap st t).start_time := by
      unfold fcfs_step
      split
      · exact ⟨h1, h2⟩
      · split
        next s hs =>
          constructor
          · simp only
            rw [List.pairwise_append]
            refine ⟨h1, List.pairwise_singleton _ _, ?_⟩
            intro a ha b hb
            have hb2 : b = (t.task_name, s) := by simpa using hb
            rw [hb2]
            exact Nat.le_trans (h2 a ha) (find_start_ge cap st.allocs t.requirements st.start_time s hs)
          · intro a ha
            rcases List.mem_append.mp ha with hmem | hmem
            · exact Nat.le_trans (h2 a hmem)
                (find_start_ge cap st.allocs t.requirements st.start_time s hs)
            · have ha2 : a = (t.task_name, s) := by simpa using hmem
              rw [ha2]
        next => exact ⟨h1, h2⟩
    exact ih _ hstep.1 hstep.2

/-- C10: in `FCFS.schedule_all` the assigned start times are
non-decreasing in arrival order — for any two tasks that both receive
allocations, the later-arriving task's start time is at least the
earlier-arriving task's — because each task's search begins at the
persisting `start_time` of the previous allocation. -/
theorem C10_fcfs_monotone_starts (cap : Nat) (tasks : List SchedTask) :
    ((fcfs_schedule_all cap tasks).assigns).Pairwise (fun a b => a.2 ≤ b.2) :=
  fcfs_foldl_inv cap tasks ⟨[], 0, []⟩ (List.Pairwise.nil) (by intro a ha; simp at ha)

/-- The backfill failing input: on one inventory of 4 aggregate nodes
... (capacity 3): T1 and T2 run at once, T3 is reserved at its shadow
time 12, and T4 is the backfill candidate. -/
def bfT1 : BFTask := ⟨"T1", ⟨2, 1⟩, []⟩

/-- Long task keeping one node busy until time 12. -/
def bfT2 : BFTask := ⟨"T2", ⟨12, 1⟩, []⟩

/-- The reserved task: needs the full capacity, so its shadow time is
12, when both T1 and T2 have ended. -/
def bfT3 : BFTask := ⟨"T3", ⟨5, 3⟩, []⟩

/-- The backfill candidate: fits before the shadow time both at t = 0
and at t = 2. -/
def bfT4 : BFTask := ⟨"T4", ⟨4, 1⟩, []⟩

/-- C7: the backfill candidate T4 receives *two* allocations, at t = 0
and at t = 2 — the inner backfill loop has no `break`, so it allocates
at every possible time at which the candidate still fits, double-booking
the candidate in the allocator's ledger instead of inserting it exactly
once. -/
theorem C7_backfill_double_allocation :
    ((backfill_schedule_all 3 [bfT1, bfT2, bfT3, bfT4]).filter
        (fun a => a.task_name == "T4")) =
      [⟨"T4", 0, 4, 1⟩, ⟨"T4", 2, 4, 1⟩] ∧
    ([⟨"T4", 0, 4, 1⟩, ⟨"T4", 2, 4, 1⟩] : List Alloc).length ≠ 1 := by
  exact ⟨rfl, by decide⟩

end BEE.Sched
